import Mathlib

/-!
Verification development for the ART-extension JIT profiling record
(`runtime/jit/profiling_info.cc`) and the instruction-graph cloner
(`compiler/optimizing/extensions/infrastructure/cloning.h`).

The profiling side is embedded from `profiling_info.cc`:
* `bbScan` / `CreateScan` embed the instruction walk of `ProfilingInfo::Create`;
* `ProfilingInfo.mk'` embeds the `ProfilingInfo` constructor;
* `AddInvokeInfo` embeds `ProfilingInfo::AddInvokeInfo` (sequential execution:
  the compare-and-swap on an empty slot always succeeds since no other writer
  races it, and the garbage collector is quiescent);
* `IncrementBBCount` embeds `ProfilingInfo::IncrementBBCount`, with a `debug`
  flag reflecting `DCHECK` (fatal in debug builds, compiled out otherwise).

Fatal checks (`CHECK`, `DCHECK`, `LOG(FATAL)`) are modelled as `none`.
-/

/-- `std::numeric_limits<uint32_t>::max()`. -/
def UINT32_MAX : Nat := 2 ^ 32 - 1

/-- The dex opcodes that `ProfilingInfo::Create` distinguishes; every other
opcode falls into the `default` case and is represented by `OTHER`. -/
inductive DexOp
  | INVOKE_VIRTUAL
  | INVOKE_VIRTUAL_RANGE
  | INVOKE_VIRTUAL_QUICK
  | INVOKE_VIRTUAL_RANGE_QUICK
  | INVOKE_INTERFACE
  | INVOKE_INTERFACE_RANGE
  | GOTO
  | GOTO_16
  | GOTO_32
  | IF_EQ
  | IF_NE
  | IF_GT
  | IF_GE
  | IF_LT
  | IF_LE
  | IF_EQZ
  | IF_NEZ
  | IF_GTZ
  | IF_GEZ
  | IF_LTZ
  | IF_LEZ
  | PACKED_SWITCH
  | SPARSE_SWITCH
  | OTHER
deriving DecidableEq

/-- One decoded dex instruction, at the interface the bytecode decoder
presents to `ProfilingInfo::Create`: its opcode, `SizeInCodeUnits()`,
`GetTargetOffset()` (a relative signed offset, meaningful for gotos and
conditional branches), and for packed/sparse switches the list of decoded
relative case targets read from the inline switch payload. -/
structure DexInstr where
  op : DexOp
  sizeInCodeUnits : Nat
  targetOffset : Int
  switchTargets : List Int
deriving DecidableEq

/-- The `INVOKE_VIRTUAL .. INVOKE_INTERFACE_RANGE` case labels of the switch
in `ProfilingInfo::Create`. -/
def isProfiledInvoke : DexOp → Bool
  | .INVOKE_VIRTUAL | .INVOKE_VIRTUAL_RANGE | .INVOKE_VIRTUAL_QUICK
  | .INVOKE_VIRTUAL_RANGE_QUICK | .INVOKE_INTERFACE | .INVOKE_INTERFACE_RANGE => true
  | _ => false

/-- The `GOTO, GOTO_16, GOTO_32` case labels. -/
def isGotoOp : DexOp → Bool
  | .GOTO | .GOTO_16 | .GOTO_32 => true
  | _ => false

/-- The `IF_EQ .. IF_LEZ` case labels. -/
def isIfOp : DexOp → Bool
  | .IF_EQ | .IF_NE | .IF_GT | .IF_GE | .IF_LT | .IF_LE
  | .IF_EQZ | .IF_NEZ | .IF_GTZ | .IF_GEZ | .IF_LTZ | .IF_LEZ => true
  | _ => false

/-- The `PACKED_SWITCH` and `SPARSE_SWITCH` case labels. -/
def isSwitchOp : DexOp → Bool
  | .PACKED_SWITCH | .SPARSE_SWITCH => true
  | _ => false

/-- `uint32_t` addition of a dex pc and a signed relative offset
(`dex_pc + instruction.GetTargetOffset()` in C++). -/
def u32add (pc : Nat) (off : Int) : Nat := (((pc : Int) + off) % (2 ^ 32)).toNat

/-- The instruction-walk loop of `ProfilingInfo::Create`, started at `dex_pc`:
returns the call-site list `entries` (in encounter order) and the block-start
offsets inserted by the loop body (`dex_pc_bb_starts`, minus the initial `0`
and the catch handlers, which the caller adds). Each iteration advances
`dex_pc` by `instruction.SizeInCodeUnits()`. -/
def bbScan : Nat → List DexInstr → List Nat × Finset Nat
  | _, [] => ([], ∅)
  | pc, i :: rest =>
    let r := bbScan (pc + i.sizeInCodeUnits) rest
    if isProfiledInvoke i.op then (pc :: r.1, r.2)
    else if isGotoOp i.op then (r.1, insert (u32add pc i.targetOffset) r.2)
    else if isIfOp i.op then
      (r.1, insert (pc + i.sizeInCodeUnits) (insert (u32add pc i.targetOffset) r.2))
    else if isSwitchOp i.op then
      (r.1, insert (pc + 3) (r.2 ∪ (i.switchTargets.map (u32add pc)).toFinset))
    else r

/-- The full block-start set of `ProfilingInfo::Create`: offset `0` (method
entry), the offsets inserted by the instruction walk, and every catch-handler
address from the exception table. -/
def createBBStartSet (code : List DexInstr) (handlers : List Nat) : Finset Nat :=
  insert 0 ((bbScan 0 code).2 ∪ handlers.toFinset)

/-- The two vectors `ProfilingInfo::Create` hands to the constructor: the
call-site list `entries` and the ascending list `dex_pcs` obtained by
iterating the ordered set `dex_pc_bb_starts`. -/
def CreateScan (code : List DexInstr) (handlers : List Nat) : List Nat × List Nat :=
  ((bbScan 0 code).1, Finset.sort (· ≤ ·) (createBBStartSet code handlers))

/-- Dex instructions paired with the pc at which they sit, for stating where
each block-start offset comes from. -/
def instrsWithPc : Nat → List DexInstr → List (Nat × DexInstr)
  | _, [] => []
  | pc, i :: rest => (pc, i) :: instrsWithPc (pc + i.sizeInCodeUnits) rest

/-- One `InlineCache`: the call-site `dex_pc_` plus its fixed array
`classes_[kIndividualCacheSize]` of `GcRoot<mirror::Class>` slots; `none` is a
null slot, `some c` a recorded receiver class. -/
structure InlineCache where
  dex_pc : Nat
  classes : List (Option Nat)
deriving DecidableEq

/-- One `BBCounts` record: a block-start `dex_pc_` and its saturating
`uint32_t` counter `count_`. -/
structure BBCounts where
  dex_pc : Nat
  count : Nat
deriving DecidableEq

/-- The mutable content of a `ProfilingInfo`: the inline-cache array, the
block-counter array, and whether `holding_class_` is null (the constructor
`DCHECK`s that it is not). Scheduling flags and the saved entry point play no
role in the embedded operations and are omitted. -/
structure ProfilingInfo where
  cache : List InlineCache
  bbCounts : List BBCounts
  holdingClassNull : Bool
deriving DecidableEq

/-- The `ProfilingInfo` constructor: `memset` clears every inline-cache slot,
`entries[i]` becomes `cache_[i].dex_pc_`, and each `dex_pcs[i]` becomes a
`BBCounts` entry with `count_ = 0`. The slot capacity `kIndividualCacheSize`
is declared in the (absent) `profiling_info.h` header, so it is a parameter
`cap` here. -/
def ProfilingInfo.mk' (cap : Nat) (entries dex_pcs : List Nat)
    (holdingClassNull : Bool) : ProfilingInfo :=
  { cache := entries.map fun pc => ⟨pc, List.replicate cap none⟩
    bbCounts := dex_pcs.map fun pc => ⟨pc, 0⟩
    holdingClassNull := holdingClassNull }

/-- The slot loop of `ProfilingInfo::AddInvokeInfo`, run sequentially (the
compare-and-swap from null always succeeds). Returns the new slot array and
whether `cls` was published into an empty slot; a scan that finds `cls`
already present, or runs off the end with every slot occupied by another
class, leaves the slots unchanged and publishes nothing. -/
def addInvokeSlots (cls : Nat) : List (Option Nat) → List (Option Nat) × Bool
  | [] => ([], false)
  | some existing :: rest =>
    if existing = cls then (some existing :: rest, false)
    else
      let r := addInvokeSlots cls rest
      (some existing :: r.1, r.2)
  | none :: rest => (some cls :: rest, true)

/-- The search-then-update of `ProfilingInfo::AddInvokeInfo` over the
inline-cache array: `GetInlineCache` scans for the first entry with the given
`dex_pc_`; no match is the fatal `CHECK(cache != nullptr)`, modelled as
`none`. On a match the slot loop runs, and a successful publish performs
`WriteBarrierEveryFieldOf(holding_class_)` when `holding_class_` is not null;
the returned `Nat` counts those write-barrier invocations. -/
def addInvokeCaches (pc cls : Nat) (holdingClassNull : Bool) :
    List InlineCache → Option (List InlineCache × Bool × Nat)
  | [] => none
  | c :: rest =>
    if c.dex_pc = pc then
      let r := addInvokeSlots cls c.classes
      some (⟨c.dex_pc, r.1⟩ :: rest, r.2,
            if r.2 && !holdingClassNull then 1 else 0)
    else
      match addInvokeCaches pc cls holdingClassNull rest with
      | none => none
      | some (l, pub, bar) => some (c :: l, pub, bar)

/-- `ProfilingInfo::AddInvokeInfo(dex_pc, cls)` in sequential execution:
`none` is the fatal `CHECK` on an unregistered call site; otherwise the new
profile state, whether a slot was published, and how many write-barrier
notifications were issued. -/
def AddInvokeInfo (p : ProfilingInfo) (pc cls : Nat) :
    Option (ProfilingInfo × Bool × Nat) :=
  match addInvokeCaches pc cls p.holdingClassNull p.cache with
  | none => none
  | some (l, pub, bar) => some ({ p with cache := l }, pub, bar)

/-- The counter loop of `ProfilingInfo::IncrementBBCount`: linear scan for the
matching `dex_pc_`; on a match the counter is incremented unless it already
equals `std::numeric_limits<uint32_t>::max()`. Returns the new counter array
and whether a match was found. -/
def incBBCounts (pc : Nat) : List BBCounts → List BBCounts × Bool
  | [] => ([], false)
  | c :: rest =>
    if c.dex_pc = pc then
      ((if c.count ≠ UINT32_MAX then ⟨c.dex_pc, c.count + 1⟩ else c) :: rest, true)
    else
      let r := incBBCounts pc rest
      (c :: r.1, r.2)

/-- `ProfilingInfo::IncrementBBCount(dex_pc)`: when no counter matches, the
trailing `DCHECK(false)` aborts in a debug build (`none`) and is compiled out
otherwise (the call returns with no effect). -/
def IncrementBBCount (debug : Bool) (p : ProfilingInfo) (pc : Nat) :
    Option ProfilingInfo :=
  let r := incBBCounts pc p.bbCounts
  if r.2 = false ∧ debug = true then none
  else some { p with bbCounts := r.1 }

/-- Folding a list of `AddInvokeInfo` calls for one call site, aborting if any
call hits the fatal `CHECK`. -/
def addInvokeSeq (pc : Nat) : ProfilingInfo → List Nat → Option ProfilingInfo
  | p, [] => some p
  | p, t :: ts =>
    match AddInvokeInfo p pc t with
    | none => none
    | some (q, _, _) => addInvokeSeq pc q ts

/-- One completed `IncrementBBCount` call, in either build mode. -/
def BBStep (p q : ProfilingInfo) : Prop :=
  ∃ debug pc, IncrementBBCount debug p pc = some q

/-- One completed mutating operation on a `ProfilingInfo`: a successful
`AddInvokeInfo` or a completed `IncrementBBCount`. -/
def ProfStep (p q : ProfilingInfo) : Prop :=
  (∃ pc cls pub bar, AddInvokeInfo p pc cls = some (q, pub, bar)) ∨ BBStep p q

/-!
The instruction cloner, embedded from `cloning.h`. The per-kind `Visit*`
bodies for cloneable kinds live in a `cloning.cc` that is not part of this
repository snapshot; they are modelled from the spec where marked. Every kind
with an inline body in the header (all of which call
`UnsupportedInstruction`), the default `VisitInstruction`, `CommitClone`,
`UnsupportedInstruction`, `GetClone` and `GetDebugNameForFailedClone` are
embedded from the header itself.
-/

/-- Every `HInstruction` kind with a `Visit*` override in `HInstructionCloner`
(cloning.h), plus `Unclassified`, which stands for any node kind of the IR
without an override — such a node reaches the default `VisitInstruction`. -/
inductive HInstrKind
  | Above
  | AboveOrEqual
  | Add
  | AddLHSMemory
  | AddRHSMemory
  | And
  | ArrayGet
  | ArrayLength
  | ArraySet
  | Below
  | BelowOrEqual
  | BooleanNot
  | BoundsCheck
  | BoundType
  | CheckCast
  | ClassTableGet
  | ClearException
  | ClinitCheck
  | Compare
  | CurrentMethod
  | Deoptimize
  | DevirtGuard
  | Div
  | DivRHSMemory
  | DivZeroCheck
  | DoubleConstant
  | Equal
  | Exit
  | FloatConstant
  | Goto
  | GreaterThan
  | GreaterThanOrEqual
  | If
  | InstanceFieldGet
  | InstanceFieldSet
  | InstanceOf
  | IntConstant
  | InvokeInterface
  | InvokeStaticOrDirect
  | InvokeVirtual
  | InvokeUnresolved
  | LessThan
  | LessThanOrEqual
  | LoadClass
  | LoadException
  | LoadString
  | LongConstant
  | MemoryBarrier
  | MonitorOperation
  | Mul
  | MulRHSMemory
  | NativeDebugInfo
  | Neg
  | NewArray
  | NewInstance
  | Not
  | NotEqual
  | NullConstant
  | NullCheck
  | Or
  | PackedSwitch
  | ParallelMove
  | ParameterValue
  | Phi
  | Rem
  | Return
  | ReturnVoid
  | Ror
  | Select
  | Shl
  | Shr
  | StaticFieldGet
  | StaticFieldSet
  | Sub
  | SubRHSMemory
  | Suspend
  | SuspendCheck
  | TestSuspend
  | Throw
  | TryBoundary
  | TypeConversion
  | UShr
  | UnresolvedInstanceFieldGet
  | UnresolvedInstanceFieldSet
  | UnresolvedStaticFieldGet
  | UnresolvedStaticFieldSet
  | Xor
  | X86SelectValue
  | X86ProfileInvoke
  | X86IncrementExecutionCount
  | X86ComputeBaseMethodAddress
  | X86LoadFromConstantTable
  | X86FPNeg
  | X86PackedSwitch
  | X86BoundsCheckMemory
  | Unclassified
deriving DecidableEq

/-- `HInstruction::DebugName()`: the kind name, as produced by the
`DECLARE_INSTRUCTION` macro. For `Unclassified` (a kind with no override) the
concrete name is irrelevant to every statement below. -/
def debugName : HInstrKind → String
  | .Above => "Above"
  | .AboveOrEqual => "AboveOrEqual"
  | .Add => "Add"
  | .AddLHSMemory => "AddLHSMemory"
  | .AddRHSMemory => "AddRHSMemory"
  | .And => "And"
  | .ArrayGet => "ArrayGet"
  | .ArrayLength => "ArrayLength"
  | .ArraySet => "ArraySet"
  | .Below => "Below"
  | .BelowOrEqual => "BelowOrEqual"
  | .BooleanNot => "BooleanNot"
  | .BoundsCheck => "BoundsCheck"
  | .BoundType => "BoundType"
  | .CheckCast => "CheckCast"
  | .ClassTableGet => "ClassTableGet"
  | .ClearException => "ClearException"
  | .ClinitCheck => "ClinitCheck"
  | .Compare => "Compare"
  | .CurrentMethod => "CurrentMethod"
  | .Deoptimize => "Deoptimize"
  | .DevirtGuard => "DevirtGuard"
  | .Div => "Div"
  | .DivRHSMemory => "DivRHSMemory"
  | .DivZeroCheck => "DivZeroCheck"
  | .DoubleConstant => "DoubleConstant"
  | .Equal => "Equal"
  | .Exit => "Exit"
  | .FloatConstant => "FloatConstant"
  | .Goto => "Goto"
  | .GreaterThan => "GreaterThan"
  | .GreaterThanOrEqual => "GreaterThanOrEqual"
  | .If => "If"
  | .InstanceFieldGet => "InstanceFieldGet"
  | .InstanceFieldSet => "InstanceFieldSet"
  | .InstanceOf => "InstanceOf"
  | .IntConstant => "IntConstant"
  | .InvokeInterface => "InvokeInterface"
  | .InvokeStaticOrDirect => "InvokeStaticOrDirect"
  | .InvokeVirtual => "InvokeVirtual"
  | .InvokeUnresolved => "InvokeUnresolved"
  | .LessThan => "LessThan"
  | .LessThanOrEqual => "LessThanOrEqual"
  | .LoadClass => "LoadClass"
  | .LoadException => "LoadException"
  | .LoadString => "LoadString"
  | .LongConstant => "LongConstant"
  | .MemoryBarrier => "MemoryBarrier"
  | .MonitorOperation => "MonitorOperation"
  | .Mul => "Mul"
  | .MulRHSMemory => "MulRHSMemory"
  | .NativeDebugInfo => "NativeDebugInfo"
  | .Neg => "Neg"
  | .NewArray => "NewArray"
  | .NewInstance => "NewInstance"
  | .Not => "Not"
  | .NotEqual => "NotEqual"
  | .NullConstant => "NullConstant"
  | .NullCheck => "NullCheck"
  | .Or => "Or"
  | .PackedSwitch => "PackedSwitch"
  | .ParallelMove => "ParallelMove"
  | .ParameterValue => "ParameterValue"
  | .Phi => "Phi"
  | .Rem => "Rem"
  | .Return => "Return"
  | .ReturnVoid => "ReturnVoid"
  | .Ror => "Ror"
  | .Select => "Select"
  | .Shl => "Shl"
  | .Shr => "Shr"
  | .StaticFieldGet => "StaticFieldGet"
  | .StaticFieldSet => "StaticFieldSet"
  | .Sub => "Sub"
  | .SubRHSMemory => "SubRHSMemory"
  | .Suspend => "Suspend"
  | .SuspendCheck => "SuspendCheck"
  | .TestSuspend => "TestSuspend"
  | .Throw => "Throw"
  | .TryBoundary => "TryBoundary"
  | .TypeConversion => "TypeConversion"
  | .UShr => "UShr"
  | .UnresolvedInstanceFieldGet => "UnresolvedInstanceFieldGet"
  | .UnresolvedInstanceFieldSet => "UnresolvedInstanceFieldSet"
  | .UnresolvedStaticFieldGet => "UnresolvedStaticFieldGet"
  | .UnresolvedStaticFieldSet => "UnresolvedStaticFieldSet"
  | .Xor => "Xor"
  | .X86SelectValue => "X86SelectValue"
  | .X86ProfileInvoke => "X86ProfileInvoke"
  | .X86IncrementExecutionCount => "X86IncrementExecutionCount"
  | .X86ComputeBaseMethodAddress => "X86ComputeBaseMethodAddress"
  | .X86LoadFromConstantTable => "X86LoadFromConstantTable"
  | .X86FPNeg => "X86FPNeg"
  | .X86PackedSwitch => "X86PackedSwitch"
  | .X86BoundsCheckMemory => "X86BoundsCheckMemory"
  | .Unclassified => "Unclassified"

/-- How the cloner's dispatch table classifies a kind. -/
inductive CloneSupport
  | supportedKind
  | unsupportedKind
  | unclassified
deriving DecidableEq

/-- The dispatch table of `HInstructionCloner`, read off cloning.h: the kinds
whose `Visit*` override is defined inline in the header all call
`UnsupportedInstruction`; `Unclassified` falls through to the default
`VisitInstruction`; every remaining kind has a `Visit*` override declared in
the header and defined in cloning.cc, i.e. it is cloneable. -/
def classify : HInstrKind → CloneSupport
  | .AddLHSMemory | .AddRHSMemory | .CurrentMethod | .DivRHSMemory
  | .DoubleConstant | .Exit | .FloatConstant | .IntConstant | .LongConstant
  | .MulRHSMemory | .NullConstant | .ParallelMove | .ParameterValue
  | .SubRHSMemory | .X86ComputeBaseMethodAddress => .unsupportedKind
  | .Unclassified => .unclassified
  | _ => .supportedKind

/-- An IR node, reduced to what the embedded cloner operations inspect: its
kind and its identity (the `HInstruction*` pointer). -/
structure HInstruction where
  kind : HInstrKind
  id : Nat
deriving DecidableEq

/-- Lookup in a `SafeMap<HInstruction*, HInstruction*>` represented as an
association list (`Get` / `find` / `count`). -/
def mapGet (k : Nat) : List (Nat × Nat) → Option Nat
  | [] => none
  | (a, b) :: rest => if a = k then some b else mapGet k rest

/-- `SafeMap::Overwrite`: replace the value of an existing key, or insert. -/
def mapOverwrite (k v : Nat) : List (Nat × Nat) → List (Nat × Nat)
  | [] => [(k, v)]
  | (a, b) :: rest => if a = k then (k, v) :: rest else (a, b) :: mapOverwrite k v rest

/-- The state of an `HInstructionCloner`. The arena and the graph pointer are
allocation plumbing and are omitted; `orig_to_clone_` maps original node
identities to clone identities; `debug_name_failed_clone_` is `nullptr`
(`none`) until a failure is recorded. -/
structure HInstructionCloner where
  cloning_enabled : Bool
  all_cloned_okay : Bool
  use_cloned_inputs : Bool
  allow_overwrite : Bool
  orig_to_clone : List (Nat × Nat)
  manual_clones : List Nat
  debug_name_failed_clone : Option String
deriving DecidableEq

/-- The `HInstructionCloner` constructor: flags from the arguments,
`all_cloned_okay_` true, empty clone map, null failure name. -/
def mkCloner (enable_cloning use_cloned_inputs allow_overwrite : Bool) :
    HInstructionCloner :=
  { cloning_enabled := enable_cloning
    all_cloned_okay := true
    use_cloned_inputs := use_cloned_inputs
    allow_overwrite := allow_overwrite
    orig_to_clone := []
    manual_clones := []
    debug_name_failed_clone := none }

/-- `HInstructionCloner::UnsupportedInstruction`: clear `all_cloned_okay_`
and record the node's debug name as the failed clone. -/
def UnsupportedInstruction (instr : HInstruction) (s : HInstructionCloner) :
    HInstructionCloner :=
  { s with all_cloned_okay := false
           debug_name_failed_clone := some (debugName instr.kind) }

/-- `HInstructionCloner::CommitClone`: without `allow_overwrite_`, a
`DCHECK` rejects an original that is already mapped (fatal in a debug build,
compiled out otherwise); then `Overwrite` installs the mapping. -/
def CommitClone (debug : Bool) (instr : HInstruction) (clone : Nat)
    (s : HInstructionCloner) : Option HInstructionCloner :=
  if s.allow_overwrite = false ∧ debug = true ∧
      mapGet instr.id s.orig_to_clone ≠ none then none
  else some { s with orig_to_clone := mapOverwrite instr.id clone s.orig_to_clone }

/-- `HInstructionCloner::GetClone`: the mapped clone, or `nullptr` (`none`)
when the original has no mapping. -/
def GetClone (s : HInstructionCloner) (source : Nat) : Option Nat :=
  mapGet source s.orig_to_clone

/-- Modelled from the spec: `AllOkay()` is declared in cloning.h but defined
in the missing cloning.cc. Per the spec it reports whether every visited node
this pass cloned successfully, i.e. it returns the `all_cloned_okay_` flag
that `UnsupportedInstruction` clears. -/
def AllOkay (s : HInstructionCloner) : Bool := s.all_cloned_okay

/-- `HInstructionCloner::GetDebugNameForFailedClone`: `DCHECK`s that the pass
failed (fatal in a debug build when `all_cloned_okay_` still holds), then
returns `debug_name_failed_clone_`. -/
def GetDebugNameForFailedClone (debug : Bool) (s : HInstructionCloner) :
    Option (Option String) :=
  if debug = true ∧ s.all_cloned_okay = true then none
  else some s.debug_name_failed_clone

/-- Visiting one node. Dispatch is by kind, as in `HGraphVisitor`:
* a kind whose override is inline in the header calls
  `UnsupportedInstruction` (embedded from cloning.h);
* a kind with no override reaches `VisitInstruction`, which is
  `LOG(FATAL)` in a debug build and otherwise marks the node unsupported
  (embedded from cloning.h);
* a cloneable kind's override is in the missing cloning.cc. Modelled from the
  spec: with cloning enabled it builds a clone (identity `cloneId` here) and
  registers it via `CommitClone`; a cloner constructed in disabled mode only
  probes feasibility, so it produces no clone and records nothing. -/
def visitInstr (debug : Bool) (cloneId : Nat) (s : HInstructionCloner)
    (instr : HInstruction) : Option HInstructionCloner :=
  match classify instr.kind with
  | .unsupportedKind => some (UnsupportedInstruction instr s)
  | .unclassified =>
    if debug then none else some (UnsupportedInstruction instr s)
  | .supportedKind =>
    if s.cloning_enabled then CommitClone debug instr cloneId s
    else some s

/-- Whether visiting a node of kind `k` goes through the
`UnsupportedInstruction` path, for a pass with the given build mode. -/
def takesUnsupportedPath (debug : Bool) (k : HInstrKind) : Bool :=
  match classify k with
  | .unsupportedKind => true
  | .unclassified => !debug
  | .supportedKind => false

/-- One cloning pass: visit the nodes in order, `none` as soon as a visit
hits a fatal check. `mk` supplies the identity of the clone built for each
cloneable node. -/
def runPass (debug : Bool) (mk : HInstruction → Nat) :
    HInstructionCloner → List HInstruction → Option HInstructionCloner
  | s, [] => some s
  | s, instr :: rest =>
    match visitInstr debug (mk instr) s instr with
    | none => none
    | some s' => runPass debug mk s' rest

/-! ### Lemmas about the inline-cache slot loop -/

/-- Running the slot loop on its own output is a no-op: the class is found. -/
theorem addInvokeSlots_idem (cls : Nat) (l : List (Option Nat)) :
    addInvokeSlots cls (addInvokeSlots cls l).1 = ((addInvokeSlots cls l).1, false) := by
  induction l with
  | nil => rfl
  | cons a rest ih =>
    cases a with
    | none => simp [addInvokeSlots]
    | some e =>
      by_cases h : e = cls
      · simp [addInvokeSlots, h]
      · simp [addInvokeSlots, h, ih]

/-- A scan over occupied slots that do not hold `t` changes nothing. -/
theorem addInvokeSlots_noneFree (t : Nat) (us : List Nat) (h : t ∉ us) :
    addInvokeSlots t (us.map some) = (us.map some, false) := by
  induction us with
  | nil => rfl
  | cons u us ih =>
    have h1 : u ≠ t := fun e => h (by simp [e])
    have h2 : t ∉ us := fun e => h (List.mem_cons_of_mem _ e)
    simp [addInvokeSlots, h1, ih h2]

/-- Publishing into the first empty slot after occupied slots not holding
`t`. -/
theorem addInvokeSlots_publish (t : Nat) (us : List Nat)
    (rest : List (Option Nat)) (h : t ∉ us) :
    addInvokeSlots t (us.map some ++ none :: rest) =
      (us.map some ++ some t :: rest, true) := by
  induction us with
  | nil => rfl
  | cons u us ih =>
    have h1 : u ≠ t := fun e => h (by simp [e])
    have h2 : t ∉ us := fun e => h (List.mem_cons_of_mem _ e)
    simp [addInvokeSlots, h1, ih h2]

/-- The slot loop reports a publish exactly when it changed the slots. -/
theorem addInvokeSlots_change (cls : Nat) (l : List (Option Nat)) :
    ((addInvokeSlots cls l).2 = false → (addInvokeSlots cls l).1 = l) ∧
    ((addInvokeSlots cls l).2 = true → (addInvokeSlots cls l).1 ≠ l) := by
  induction l with
  | nil => exact ⟨fun _ => rfl, fun h => by simp [addInvokeSlots] at h⟩
  | cons a rest ih =>
    cases a with
    | none =>
      refine ⟨fun h => by simp [addInvokeSlots] at h, fun _ => ?_⟩
      simp [addInvokeSlots]
    | some e =>
      by_cases h : e = cls
      · exact ⟨fun _ => by simp [addInvokeSlots, h], fun hgoal => by
          simp [addInvokeSlots, h] at hgoal⟩
      · constructor
        · intro hp
          simp only [addInvokeSlots, if_neg h] at hp ⊢
          simp [ih.1 hp]
        · intro hp
          simp only [addInvokeSlots, if_neg h] at hp ⊢
          intro heq
          exact ih.2 hp (by injection heq)

/-! ### Lemmas about the inline-cache array search -/

/-- `AddInvokeInfo`'s cache search, resolved when the matching entry sits
after a prefix of non-matching entries. -/
theorem addInvokeCaches_found (pc cls : Nat) (hn : Bool)
    (cs₁ cs₂ : List InlineCache) (c : InlineCache)
    (h1 : ∀ d ∈ cs₁, d.dex_pc ≠ pc) (h2 : c.dex_pc = pc) :
    addInvokeCaches pc cls hn (cs₁ ++ c :: cs₂) =
      some (cs₁ ++ ⟨c.dex_pc, (addInvokeSlots cls c.classes).1⟩ :: cs₂,
            (addInvokeSlots cls c.classes).2,
            if (addInvokeSlots cls c.classes).2 && !hn then 1 else 0) := by
  induction cs₁ with
  | nil => simp [addInvokeCaches, h2]
  | cons d cs₁ ih =>
    have hd : d.dex_pc ≠ pc := h1 d (by simp)
    have h1' : ∀ e ∈ cs₁, e.dex_pc ≠ pc := fun e he => h1 e (by simp [he])
    simp [addInvokeCaches, hd, ih h1']

/-- What a successful `addInvokeCaches` returns: the write-barrier count is
one per publish to a non-null holding class, and the array changed exactly
when a publish happened. -/
theorem addInvokeCaches_change (pc cls : Nat) (hn : Bool)
    (l l' : List InlineCache) (pub : Bool) (bar : Nat)
    (h : addInvokeCaches pc cls hn l = some (l', pub, bar)) :
    bar = (if pub && !hn then 1 else 0) ∧
    (pub = false → l' = l) ∧ (pub = true → l' ≠ l) := by
  induction l generalizing l' pub bar with
  | nil => simp [addInvokeCaches] at h
  | cons c rest ih =>
    by_cases hc : c.dex_pc = pc
    · simp only [addInvokeCaches, if_pos hc, Option.some.injEq, Prod.mk.injEq] at h
      obtain ⟨rfl, rfl, rfl⟩ := h
      refine ⟨rfl, ?_, ?_⟩
      · intro hp
        rw [(addInvokeSlots_change cls c.classes).1 hp]
      · intro hp heq
        have hne := (addInvokeSlots_change cls c.classes).2 hp
        have hcl : (⟨c.dex_pc, (addInvokeSlots cls c.classes).1⟩ : InlineCache) = c := by
          injection heq
        exact hne (congrArg InlineCache.classes hcl)
    · simp only [addInvokeCaches, if_neg hc] at h
      cases hrec : addInvokeCaches pc cls hn rest with
      | none => rw [hrec] at h; simp at h
      | some v =>
        obtain ⟨lr, pubr, barr⟩ := v
        rw [hrec] at h
        simp only [Option.some.injEq, Prod.mk.injEq] at h
        obtain ⟨rfl, rfl, rfl⟩ := h
        obtain ⟨g1, g2, g3⟩ := ih lr pubr barr hrec
        refine ⟨g1, ?_, ?_⟩
        · intro hp; rw [g2 hp]
        · intro hp heq
          exact g3 hp (by injection heq)

/-- Idempotence of the cache search-and-update. -/
theorem addInvokeCaches_idem (pc cls : Nat) (hn : Bool)
    (l l' : List InlineCache) (pub : Bool) (bar : Nat)
    (h : addInvokeCaches pc cls hn l = some (l', pub, bar)) :
    addInvokeCaches pc cls hn l' = some (l', false, 0) := by
  induction l generalizing l' pub bar with
  | nil => simp [addInvokeCaches] at h
  | cons c rest ih =>
    by_cases hc : c.dex_pc = pc
    · simp only [addInvokeCaches, if_pos hc, Option.some.injEq, Prod.mk.injEq] at h
      obtain ⟨rfl, rfl, rfl⟩ := h
      simp [addInvokeCaches, hc, addInvokeSlots_idem]
    · simp only [addInvokeCaches, if_neg hc] at h
      cases hrec : addInvokeCaches pc cls hn rest with
      | none => rw [hrec] at h; simp at h
      | some v =>
        obtain ⟨lr, pubr, barr⟩ := v
        rw [hrec] at h
        simp only [Option.some.injEq, Prod.mk.injEq] at h
        obtain ⟨rfl, rfl, rfl⟩ := h
        simp only [addInvokeCaches, if_neg hc]
        rw [ih lr pubr barr hrec]

/-- `AddInvokeInfo` on a profile whose matching inline cache sits after a
prefix of non-matching entries. -/
theorem AddInvokeInfo_found (pc cls : Nat) (hn : Bool) (bbs : List BBCounts)
    (cs₁ cs₂ : List InlineCache) (c : InlineCache)
    (h1 : ∀ d ∈ cs₁, d.dex_pc ≠ pc) (h2 : c.dex_pc = pc) :
    AddInvokeInfo ⟨cs₁ ++ c :: cs₂, bbs, hn⟩ pc cls =
      some (⟨cs₁ ++ ⟨c.dex_pc, (addInvokeSlots cls c.classes).1⟩ :: cs₂, bbs, hn⟩,
            (addInvokeSlots cls c.classes).2,
            if (addInvokeSlots cls c.classes).2 && !hn then 1 else 0) := by
  have := addInvokeCaches_found pc cls hn cs₁ cs₂ c h1 h2
  simp only [AddInvokeInfo, this]

/-- Filling an all-empty cache with distinct types, one `AddInvokeInfo` call
per type: each call publishes into the next free slot. -/
theorem addInvokeSeq_fill (pc : Nat) (hn : Bool) (bbs : List BBCounts)
    (cs₁ cs₂ : List InlineCache) (h1 : ∀ d ∈ cs₁, d.dex_pc ≠ pc)
    (ts : List Nat) :
    ∀ (us : List Nat) (k : Nat), (us ++ ts).Nodup → ts.length ≤ k →
    addInvokeSeq pc
        ⟨cs₁ ++ ⟨pc, us.map some ++ List.replicate k none⟩ :: cs₂, bbs, hn⟩ ts =
      some ⟨cs₁ ++ ⟨pc, (us ++ ts).map some ++
              List.replicate (k - ts.length) none⟩ :: cs₂, bbs, hn⟩ := by
  induction ts with
  | nil =>
    intro us k _ _
    simp [addInvokeSeq]
  | cons t ts ih =>
    intro us k hnd hlen
    cases k with
    | zero => simp at hlen
    | succ k' =>
      obtain ⟨hus, hts, hdisj⟩ := List.nodup_append.mp hnd
      have ht_us : t ∉ us := fun hmem => hdisj hmem (List.mem_cons_self t ts)
      have hstep := AddInvokeInfo_found pc t hn bbs cs₁ cs₂
        ⟨pc, us.map some ++ List.replicate (k' + 1) none⟩ h1 rfl
      rw [show (⟨pc, us.map some ++ List.replicate (k' + 1) none⟩ : InlineCache).classes
            = us.map some ++ none :: List.replicate k' none by
          simp [List.replicate_succ]] at hstep
      rw [addInvokeSlots_publish t us _ ht_us] at hstep
      dsimp only at hstep
      simp only [addInvokeSeq]
      rw [hstep]
      have hnd' : ((us ++ [t]) ++ ts).Nodup := by
        rw [← List.append_cons]
        exact hnd
      have hgoal := ih (us ++ [t]) k' hnd' (by simpa using hlen)
      rw [show (us ++ [t]).map some ++ List.replicate k' none
            = us.map some ++ some t :: List.replicate k' none by simp] at hgoal
      rw [show (us ++ [t]) ++ ts = us ++ t :: ts by rw [← List.append_cons]] at hgoal
      rw [show k' - ts.length = k' + 1 - (t :: ts).length by simp] at hgoal
      exact hgoal

/-- Claim C3: starting from a call site whose cache slots are all empty,
`N ≤ kIndividualCacheSize` distinct `AddInvokeInfo` calls leave the cache
holding exactly those `N` types, in call order, the remaining slots empty;
and once every slot is occupied, a call with a further distinct type returns
without error and without changing any slot (the site is implicitly
megamorphic). -/
theorem addInvokeInfo_fill_and_megamorphic
    (cap pc t : Nat) (ts : List Nat) (hn : Bool) (bbs : List BBCounts)
    (cs₁ cs₂ : List InlineCache) (h1 : ∀ d ∈ cs₁, d.dex_pc ≠ pc)
    (hnd : ts.Nodup) (hlen : ts.length ≤ cap) :
    addInvokeSeq pc ⟨cs₁ ++ ⟨pc, List.replicate cap none⟩ :: cs₂, bbs, hn⟩ ts =
      some ⟨cs₁ ++ ⟨pc, ts.map some ++
              List.replicate (cap - ts.length) none⟩ :: cs₂, bbs, hn⟩ ∧
    (∀ us : List Nat, t ∉ us →
      AddInvokeInfo ⟨cs₁ ++ ⟨pc, us.map some⟩ :: cs₂, bbs, hn⟩ pc t =
        some (⟨cs₁ ++ ⟨pc, us.map some⟩ :: cs₂, bbs, hn⟩, false, 0)) := by
  constructor
  · have := addInvokeSeq_fill pc hn bbs cs₁ cs₂ h1 ts [] cap (by simpa) hlen
    simpa using this
  · intro us hus
    have := AddInvokeInfo_found pc t hn bbs cs₁ cs₂ ⟨pc, us.map some⟩ h1 rfl
    rw [show (⟨pc, us.map some⟩ : InlineCache).classes = us.map some from rfl,
        addInvokeSlots_noneFree t us hus] at this
    simpa using this

/-- Witness for C3: capacity 2, distinct types 5 then 7 fill the cache;
a further type 9 on the full cache is dropped without error. -/
theorem addInvokeInfo_fill_and_megamorphic_witness :
    addInvokeSeq 4 ⟨[⟨4, [none, none]⟩], [], false⟩ [5, 7] =
      some ⟨[⟨4, [some 5, some 7]⟩], [], false⟩ ∧
    AddInvokeInfo ⟨[⟨4, [some 5, some 7]⟩], [], false⟩ 4 9 =
      some (⟨[⟨4, [some 5, some 7]⟩], [], false⟩, false, 0) := by
  have h := addInvokeInfo_fill_and_megamorphic 2 4 9 [5, 7] false [] [] []
    (by simp) (by decide) (by decide)
  exact ⟨h.1, h.2 [5, 7] (by decide)⟩

/-- Claim C4: `AddInvokeInfo` is idempotent — for every profile state,
registered site and type, a second identical call returns the same state (and
publishes nothing, issuing no write barrier). -/
theorem addInvokeInfo_idempotent (p : ProfilingInfo) (pc cls : Nat)
    (p' : ProfilingInfo) (pub : Bool) (bar : Nat)
    (h : AddInvokeInfo p pc cls = some (p', pub, bar)) :
    AddInvokeInfo p' pc cls = some (p', false, 0) := by
  unfold AddInvokeInfo at h ⊢
  cases hc : addInvokeCaches pc cls p.holdingClassNull p.cache with
  | none => rw [hc] at h; simp at h
  | some v =>
    obtain ⟨l, pub2, bar2⟩ := v
    rw [hc] at h
    simp only [Option.some.injEq, Prod.mk.injEq] at h
    obtain ⟨rfl, rfl, rfl⟩ := h
    have := addInvokeCaches_idem pc cls p.holdingClassNull p.cache l pub2 bar2 hc
    simp [this]

/-- Witness for C4: after publishing type 3 at site 7, a second call with 3
returns the same cache state. -/
theorem addInvokeInfo_idempotent_witness :
    AddInvokeInfo ⟨[⟨7, [some 3]⟩], [], false⟩ 7 3 =
      some (⟨[⟨7, [some 3]⟩], [], false⟩, false, 0) :=
  addInvokeInfo_idempotent ⟨[⟨7, [none]⟩], [], false⟩ 7 3
    ⟨[⟨7, [some 3]⟩], [], false⟩ true 1 (by decide)

/-- Claim C8: with a non-null holding class, an `AddInvokeInfo` call that
publishes into an empty slot issues the write-barrier notification exactly
once (and the publish is visible: the state changed); a call that returns
without publishing — type already present or cache full — issues it zero
times and leaves the state unchanged. -/
theorem addInvokeInfo_write_barrier_once (p : ProfilingInfo) (pc cls : Nat)
    (p' : ProfilingInfo) (pub : Bool) (bar : Nat)
    (hnull : p.holdingClassNull = false)
    (h : AddInvokeInfo p pc cls = some (p', pub, bar)) :
    (pub = true → bar = 1 ∧ p' ≠ p) ∧ (pub = false → bar = 0 ∧ p' = p) := by
  unfold AddInvokeInfo at h
  cases hc : addInvokeCaches pc cls p.holdingClassNull p.cache with
  | none => rw [hc] at h; simp at h
  | some v =>
    obtain ⟨l, pub2, bar2⟩ := v
    rw [hc] at h
    simp only [Option.some.injEq, Prod.mk.injEq] at h
    obtain ⟨rfl, rfl, rfl⟩ := h
    obtain ⟨g1, g2, g3⟩ := addInvokeCaches_change pc cls p.holdingClassNull p.cache
      l pub2 bar2 hc
    constructor
    · intro hp
      subst hp
      refine ⟨by simp [g1, hnull], ?_⟩
      intro heq
      exact g3 rfl (congrArg ProfilingInfo.cache heq)
    · intro hp
      subst hp
      refine ⟨by simp [g1], ?_⟩
      rw [g2 rfl]

/-- Witness for C8: publishing type 3 at site 7 issues one write barrier;
the repeat call issues none. -/
theorem addInvokeInfo_write_barrier_once_witness :
    (1 = 1 ∧ (⟨[⟨7, [some 3]⟩], [], false⟩ : ProfilingInfo) ≠ ⟨[⟨7, [none]⟩], [], false⟩) ∧
    (0 = 0 ∧ (⟨[⟨7, [some 3]⟩], [], false⟩ : ProfilingInfo) = ⟨[⟨7, [some 3]⟩], [], false⟩) := by
  have h1 := addInvokeInfo_write_barrier_once ⟨[⟨7, [none]⟩], [], false⟩ 7 3
    ⟨[⟨7, [some 3]⟩], [], false⟩ true 1 rfl (by decide)
  have h2 := addInvokeInfo_write_barrier_once ⟨[⟨7, [some 3]⟩], [], false⟩ 7 3
    ⟨[⟨7, [some 3]⟩], [], false⟩ false 0 rfl (by decide)
  exact ⟨h1.1 rfl, h2.2 rfl⟩

/-! ### Block counters -/

/-- How one completed `IncrementBBCount` relates an old counter entry to the
new one at the same position: same offset, the count never decreases, and a
count within `uint32_t` range stays within range. -/
def bbLe (a b : BBCounts) : Prop :=
  a.dex_pc = b.dex_pc ∧ a.count ≤ b.count ∧
    (a.count ≤ UINT32_MAX → b.count ≤ UINT32_MAX)

theorem bbLe_refl (a : BBCounts) : bbLe a a := ⟨rfl, le_refl _, fun h => h⟩

theorem bbLe_trans {a b c : BBCounts} (h1 : bbLe a b) (h2 : bbLe b c) :
    bbLe a c :=
  ⟨h1.1.trans h2.1, h1.2.1.trans h2.2.1, fun h => h2.2.2 (h1.2.2 h)⟩

theorem forall₂_bbLe_refl (l : List BBCounts) : List.Forall₂ bbLe l l :=
  List.forall₂_same.mpr fun a _ => bbLe_refl a

theorem forall₂_bbLe_trans {l₁ l₂ l₃ : List BBCounts}
    (h1 : List.Forall₂ bbLe l₁ l₂) (h2 : List.Forall₂ bbLe l₂ l₃) :
    List.Forall₂ bbLe l₁ l₃ := by
  induction h1 generalizing l₃ with
  | nil => cases h2; exact .nil
  | cons h t ih =>
    cases h2 with
    | cons h' t' => exact .cons (bbLe_trans h h') (ih t')

/-- The counter loop, resolved when the matching entry sits after a prefix of
non-matching entries. -/
theorem incBBCounts_found (pc : Nat) (l₁ l₂ : List BBCounts) (c : BBCounts)
    (h1 : ∀ d ∈ l₁, d.dex_pc ≠ pc) (h2 : c.dex_pc = pc) :
    incBBCounts pc (l₁ ++ c :: l₂) =
      (l₁ ++ (if c.count ≠ UINT32_MAX then ⟨c.dex_pc, c.count + 1⟩ else c) :: l₂,
       true) := by
  induction l₁ with
  | nil => simp [incBBCounts, h2]
  | cons d l₁ ih =>
    have hd : d.dex_pc ≠ pc := h1 d (by simp)
    have h1' : ∀ e ∈ l₁, e.dex_pc ≠ pc := fun e he => h1 e (by simp [he])
    simp [incBBCounts, hd, ih h1']

/-- A counter scan that finds no match returns the array unchanged. -/
theorem incBBCounts_not_found (pc : Nat) (l : List BBCounts)
    (h : ∀ d ∈ l, d.dex_pc ≠ pc) :
    incBBCounts pc l = (l, false) := by
  induction l with
  | nil => rfl
  | cons c l ih =>
    have hc : c.dex_pc ≠ pc := h c (by simp)
    have h' : ∀ d ∈ l, d.dex_pc ≠ pc := fun d hd => h d (by simp [hd])
    simp [incBBCounts, hc, ih h']

/-- One pass of the counter loop is pointwise monotone. -/
theorem incBBCounts_bbLe (pc : Nat) (l : List BBCounts) :
    List.Forall₂ bbLe l (incBBCounts pc l).1 := by
  induction l with
  | nil => exact .nil
  | cons c l ih =>
    by_cases hc : c.dex_pc = pc
    · simp only [incBBCounts, if_pos hc]
      refine .cons ?_ (forall₂_bbLe_refl l)
      by_cases hmax : c.count = UINT32_MAX
      · simp only [hmax, ne_eq, not_true_eq_false, if_neg, ite_false]
        exact bbLe_refl c
      · simp only [ne_eq, hmax, not_false_eq_true, if_pos, ite_true]
        refine ⟨rfl, Nat.le_succ _, fun h => ?_⟩
        have hlt : c.count < UINT32_MAX := lt_of_le_of_ne h hmax
        show c.count + 1 ≤ UINT32_MAX
        omega
    · simp only [incBBCounts, if_neg hc]
      exact .cons (bbLe_refl c) ih

/-- A completed `IncrementBBCount` call (either build mode) relates old and
new counter arrays pointwise by `bbLe`. -/
theorem bbStep_bbLe {p q : ProfilingInfo} (h : BBStep p q) :
    List.Forall₂ bbLe p.bbCounts q.bbCounts := by
  obtain ⟨debug, pc, h⟩ := h
  unfold IncrementBBCount at h
  by_cases hcond : (incBBCounts pc p.bbCounts).2 = false ∧ debug = true
  · simp [hcond] at h
  · rw [if_neg hcond] at h
    have hq : q = { p with bbCounts := (incBBCounts pc p.bbCounts).1 } := by
      injection h.symm
    rw [hq]
    exact incBBCounts_bbLe pc p.bbCounts

/-- Claim C5: block counters saturate and never wrap. On a registered offset
`IncrementBBCount` adds one while the counter is below `uint32_t` max and
leaves it unchanged at the max; and across any sequence of completed
`IncrementBBCount` calls every counter keeps its offset, never decreases, and
never leaves `uint32_t` range (so a counter at the max stays there). -/
theorem incrementBBCount_saturates :
    (∀ (debug : Bool) (cache : List InlineCache) (hn : Bool) (pc : Nat)
       (l₁ l₂ : List BBCounts) (c : BBCounts),
      (∀ d ∈ l₁, d.dex_pc ≠ pc) → c.dex_pc = pc →
      (c.count < UINT32_MAX →
        IncrementBBCount debug ⟨cache, l₁ ++ c :: l₂, hn⟩ pc =
          some ⟨cache, l₁ ++ ⟨c.dex_pc, c.count + 1⟩ :: l₂, hn⟩) ∧
      (c.count = UINT32_MAX →
        IncrementBBCount debug ⟨cache, l₁ ++ c :: l₂, hn⟩ pc =
          some ⟨cache, l₁ ++ c :: l₂, hn⟩)) ∧
    (∀ p q, Relation.ReflTransGen BBStep p q →
      List.Forall₂ bbLe p.bbCounts q.bbCounts) := by
  constructor
  · intro debug cache hn pc l₁ l₂ c h1 h2
    have hfound := incBBCounts_found pc l₁ l₂ c h1 h2
    constructor
    · intro hlt
      have hne : c.count ≠ UINT32_MAX := Nat.ne_of_lt hlt
      unfold IncrementBBCount
      dsimp only
      rw [hfound]
      simp [hne]
    · intro hmax
      unfold IncrementBBCount
      dsimp only
      rw [hfound]
      simp [hmax]
  · intro p q h
    induction h with
    | refl => exact forall₂_bbLe_refl _
    | tail _ hstep ih => exact forall₂_bbLe_trans ih (bbStep_bbLe hstep)

/-- Witness for C5: a counter at 3 increments to 4; a counter at the
`uint32_t` max stays there; a two-call sequence is monotone. -/
theorem incrementBBCount_saturates_witness :
    IncrementBBCount true ⟨[], [⟨6, 3⟩], false⟩ 6 =
      some ⟨[], [⟨6, 4⟩], false⟩ ∧
    IncrementBBCount true ⟨[], [⟨6, UINT32_MAX⟩], false⟩ 6 =
      some ⟨[], [⟨6, UINT32_MAX⟩], false⟩ ∧
    List.Forall₂ bbLe [⟨6, 3⟩] [⟨6, 4⟩] := by
  have h := incrementBBCount_saturates
  have h1 := (h.1 true [] false 6 [] [] ⟨6, 3⟩ (by simp) rfl).1 (by decide)
  have h2 := (h.1 true [] false 6 [] [] ⟨6, UINT32_MAX⟩ (by simp) rfl).2 rfl
  have h3 := h.2 ⟨[], [⟨6, 3⟩], false⟩ ⟨[], [⟨6, 4⟩], false⟩
    (Relation.ReflTransGen.single ⟨true, 6, h1⟩)
  exact ⟨by simpa using h1, by simpa using h2, by simpa using h3⟩

/-! ### Fatal checks on unregistered offsets (C6) -/

/-- The fatal `CHECK` in `AddInvokeInfo`: no inline cache matches. -/
theorem addInvokeCaches_not_found (pc cls : Nat) (hn : Bool)
    (l : List InlineCache) (h : ∀ c ∈ l, c.dex_pc ≠ pc) :
    addInvokeCaches pc cls hn l = none := by
  induction l with
  | nil => rfl
  | cons c l ih =>
    have hc : c.dex_pc ≠ pc := h c (by simp)
    have h' : ∀ d ∈ l, d.dex_pc ≠ pc := fun d hd => h d (by simp [hd])
    simp [addInvokeCaches, hc, ih h']

/-- Claim C6 (amended): querying an offset never registered at creation is a
programmer-error abort — `AddInvokeInfo` on an unregistered `dex_pc` hits the
fatal `CHECK` in every build; `IncrementBBCount` on an unregistered `dex_pc`
hits `DCHECK(false)` in a debug build (and returns with no effect in a
release build); and a node kind with no `Visit*` override reaching the
default `VisitInstruction` is `LOG(FATAL)` in a debug build. -/
theorem unregistered_offset_fatal :
    (∀ (p : ProfilingInfo) (pc cls : Nat),
      (∀ c ∈ p.cache, c.dex_pc ≠ pc) → AddInvokeInfo p pc cls = none) ∧
    (∀ (p : ProfilingInfo) (pc : Nat),
      (∀ c ∈ p.bbCounts, c.dex_pc ≠ pc) →
        IncrementBBCount true p pc = none ∧
        IncrementBBCount false p pc = some p) ∧
    (∀ (s : HInstructionCloner) (instr : HInstruction) (cloneId : Nat),
      classify instr.kind = .unclassified →
        visitInstr true cloneId s instr = none) := by
  refine ⟨?_, ?_, ?_⟩
  · intro p pc cls h
    unfold AddInvokeInfo
    rw [addInvokeCaches_not_found pc cls p.holdingClassNull p.cache h]
  · intro p pc h
    have hnf := incBBCounts_not_found pc p.bbCounts h
    unfold IncrementBBCount
    rw [hnf]
    simp
  · intro s instr cloneId h
    unfold visitInstr
    rw [h]
    simp

/-- Witness for C6 (amended), at empty structures and an unclassified kind. -/
theorem unregistered_offset_fatal_witness :
    AddInvokeInfo ⟨[], [], false⟩ 3 0 = none ∧
    IncrementBBCount true ⟨[], [], false⟩ 3 = none ∧
    visitInstr true 0 (mkCloner true true false) ⟨.Unclassified, 1⟩ = none := by
  have h := unregistered_offset_fatal
  exact ⟨h.1 ⟨[], [], false⟩ 3 0 (by simp),
         (h.2.1 ⟨[], [], false⟩ 3 (by simp)).1,
         h.2.2 (mkCloner true true false) ⟨.Unclassified, 1⟩ 0 rfl⟩

/-- Counterexample for C6 as stated: in a release build, `IncrementBBCount`
on a `dex_pc` with no matching counter does not abort — the `DCHECK(false)`
is compiled out and the call returns with no effect. -/
theorem incrementBBCount_release_no_abort :
    IncrementBBCount false ⟨[], [], false⟩ 5 = some ⟨[], [], false⟩ := by
  decide

/-! ### Clone map and commit policy -/

/-- `Overwrite` followed by lookup of the same key yields the new value. -/
theorem mapGet_overwrite (k v : Nat) (m : List (Nat × Nat)) :
    mapGet k (mapOverwrite k v m) = some v := by
  induction m with
  | nil => simp [mapOverwrite, mapGet]
  | cons a m ih =>
    obtain ⟨a1, a2⟩ := a
    by_cases h : a1 = k
    · simp [mapOverwrite, mapGet, h]
    · simp [mapOverwrite, mapGet, h, ih]

/-- Claim C7: without `allow_overwrite`, committing a clone for an original
that already has a clone-map entry trips the `DCHECK` (debug-build
assertion); with `allow_overwrite`, the commit replaces the mapping, so
`GetClone` afterwards returns the second clone and no longer the first. -/
theorem commitClone_overwrite_policy :
    (∀ (s : HInstructionCloner) (instr : HInstruction) (clone : Nat),
      s.allow_overwrite = false → mapGet instr.id s.orig_to_clone ≠ none →
      CommitClone true instr clone s = none) ∧
    (∀ (s : HInstructionCloner) (instr : HInstruction) (c₁ c₂ : Nat)
       (debug : Bool),
      s.allow_overwrite = true → GetClone s instr.id = some c₁ →
      ∃ s', CommitClone debug instr c₂ s = some s' ∧
        GetClone s' instr.id = some c₂ ∧
        (c₁ ≠ c₂ → GetClone s' instr.id ≠ some c₁)) := by
  constructor
  · intro s instr clone hov hmem
    unfold CommitClone
    rw [if_pos ⟨hov, rfl, hmem⟩]
  · intro s instr c₁ c₂ debug hov hc₁
    refine ⟨{ s with orig_to_clone := mapOverwrite instr.id c₂ s.orig_to_clone },
            ?_, ?_, ?_⟩
    · unfold CommitClone
      rw [if_neg]
      intro hcontra
      rw [hov] at hcontra
      exact Bool.true_eq_false ▸ hcontra.1
    · exact mapGet_overwrite instr.id c₂ s.orig_to_clone
    · intro hne hcontra
      unfold GetClone at hcontra
      dsimp only at hcontra
      rw [mapGet_overwrite instr.id c₂ s.orig_to_clone] at hcontra
      exact hne (Option.some.inj hcontra).symm

/-- Witness for C7: original 1 is mapped to clone 2; without overwrite a
second commit is rejected, with overwrite a commit of clone 9 replaces it. -/
theorem commitClone_overwrite_policy_witness :
    CommitClone true ⟨.Add, 1⟩ 3
      ⟨true, true, true, false, [(1, 2)], [], none⟩ = none ∧
    ∃ s', CommitClone false ⟨.Add, 1⟩ 9
        ⟨true, true, true, true, [(1, 2)], [], none⟩ = some s' ∧
      GetClone s' 1 = some 9 ∧ (2 ≠ 9 → GetClone s' 1 ≠ some 2) := by
  have h := commitClone_overwrite_policy
  exact ⟨h.1 ⟨true, true, true, false, [(1, 2)], [], none⟩ ⟨.Add, 1⟩ 3 rfl
           (by decide),
         h.2 ⟨true, true, true, true, [(1, 2)], [], none⟩ ⟨.Add, 1⟩ 2 9 false rfl
           (by decide)⟩

/-- Claim C10: a node that takes the unsupported path is never registered in
the clone map — the visit only clears the all-cloned-okay flag and records
the failed-clone debug name, every mapping is untouched, and `GetClone` on
the node still returns null afterwards unless a mapping was separately
seeded. -/
theorem unsupported_path_no_mapping (debug : Bool) (cloneId : Nat)
    (s : HInstructionCloner) (instr : HInstruction)
    (h : takesUnsupportedPath debug instr.kind = true) :
    visitInstr debug cloneId s instr = some (UnsupportedInstruction instr s) ∧
    UnsupportedInstruction instr s =
      { s with all_cloned_okay := false
               debug_name_failed_clone := some (debugName instr.kind) } ∧
    (UnsupportedInstruction instr s).orig_to_clone = s.orig_to_clone ∧
    (∀ x, GetClone (UnsupportedInstruction instr s) x = GetClone s x) ∧
    (GetClone s instr.id = none →
      GetClone (UnsupportedInstruction instr s) instr.id = none) := by
  refine ⟨?_, rfl, rfl, fun x => rfl, fun hx => hx⟩
  unfold takesUnsupportedPath at h
  unfold visitInstr
  cases hcl : classify instr.kind with
  | supportedKind => rw [hcl] at h; simp at h
  | unsupportedKind => rfl
  | unclassified =>
    rw [hcl] at h
    simp only [Bool.not_eq_true'] at h
    rw [h]
    rfl

/-- Witness for C10: visiting an `Exit` node records the failure and leaves
the (empty) clone map alone. -/
theorem unsupported_path_no_mapping_witness :
    visitInstr true 0 (mkCloner true true false) ⟨.Exit, 4⟩ =
      some (UnsupportedInstruction ⟨.Exit, 4⟩ (mkCloner true true false)) ∧
    (UnsupportedInstruction ⟨.Exit, 4⟩ (mkCloner true true false)).orig_to_clone
      = [] ∧
    GetClone (UnsupportedInstruction ⟨.Exit, 4⟩ (mkCloner true true false)) 4
      = none := by
  have h := unsupported_path_no_mapping true 0 (mkCloner true true false)
    ⟨.Exit, 4⟩ (by decide)
  exact ⟨h.1, h.2.2.1, h.2.2.2.2 rfl⟩

/-! ### The failure-aggregation protocol of a cloning pass (C1) -/

/-- How one visit changes the failure-aggregation state. -/
theorem visitInstr_state (debug : Bool) (cloneId : Nat)
    (s s' : HInstructionCloner) (instr : HInstruction)
    (h : visitInstr debug cloneId s instr = some s') :
    s'.cloning_enabled = s.cloning_enabled ∧
    (takesUnsupportedPath debug instr.kind = true →
      s'.all_cloned_okay = false ∧
      s'.debug_name_failed_clone = some (debugName instr.kind)) ∧
    (takesUnsupportedPath debug instr.kind = false →
      s'.all_cloned_okay = s.all_cloned_okay ∧
      s'.debug_name_failed_clone = s.debug_name_failed_clone) := by
  unfold visitInstr at h
  cases hcl : classify instr.kind with
  | unsupportedKind =>
    rw [hcl] at h
    have hs : s' = UnsupportedInstruction instr s := by injection h.symm
    subst hs
    refine ⟨rfl, fun _ => ⟨rfl, rfl⟩, fun hf => ?_⟩
    unfold takesUnsupportedPath at hf
    rw [hcl] at hf
    simp at hf
  | unclassified =>
    rw [hcl] at h
    have htk : takesUnsupportedPath debug instr.kind = !debug := by
      unfold takesUnsupportedPath
      rw [hcl]
    cases debug with
    | true => simp at h
    | false =>
      simp only [Bool.false_eq_true, if_false] at h
      have hs : s' = UnsupportedInstruction instr s := by injection h.symm
      subst hs
      refine ⟨rfl, fun _ => ⟨rfl, rfl⟩, fun hf => ?_⟩
      rw [htk] at hf
      simp at hf
  | supportedKind =>
    rw [hcl] at h
    have htk : takesUnsupportedPath debug instr.kind = false := by
      unfold takesUnsupportedPath
      rw [hcl]
    have hflags : s'.cloning_enabled = s.cloning_enabled ∧
        s'.all_cloned_okay = s.all_cloned_okay ∧
        s'.debug_name_failed_clone = s.debug_name_failed_clone := by
      by_cases he : s.cloning_enabled = true
      · rw [if_pos he] at h
        unfold CommitClone at h
        by_cases hcond : s.allow_overwrite = false ∧ debug = true ∧
            mapGet instr.id s.orig_to_clone ≠ none
        · rw [if_pos hcond] at h
          simp at h
        · rw [if_neg hcond] at h
          have hs : s' = { s with orig_to_clone := mapOverwrite instr.id cloneId s.orig_to_clone } := by injection h.symm
          subst hs
          exact ⟨rfl, rfl, rfl⟩
      · rw [if_neg he] at h
        have hs : s' = s := by injection h.symm
        subst hs
        exact ⟨rfl, rfl, rfl⟩
    refine ⟨hflags.1, fun ht => ?_, fun _ => ⟨hflags.2.1, hflags.2.2⟩⟩
    rw [htk] at ht
    exact absurd ht (by simp)

/-- The failure flag and the failed-clone name across a whole pass: the flag
is cleared as soon as any visited node takes the unsupported path, and the
recorded name tracks the most recent such node. -/
theorem runPass_flag_name (debug : Bool) (mk : HInstruction → Nat)
    (ns : List HInstruction) :
    ∀ (s s' : HInstructionCloner), runPass debug mk s ns = some s' →
    s'.all_cloned_okay = (s.all_cloned_okay &&
      !(ns.any fun n => takesUnsupportedPath debug n.kind)) ∧
    s'.debug_name_failed_clone =
      ((ns.filter fun n => takesUnsupportedPath debug n.kind).getLast?).elim
        s.debug_name_failed_clone (fun n => some (debugName n.kind)) := by
  induction ns with
  | nil =>
    intro s s' h
    have hs : s' = s := by
      unfold runPass at h
      injection h.symm
    subst hs
    simp
  | cons n ns ih =>
    intro s s' h
    unfold runPass at h
    cases hv : visitInstr debug (mk n) s n with
    | none => rw [hv] at h; simp at h
    | some s₁ =>
      rw [hv] at h
      obtain ⟨hflag, hname⟩ := ih s₁ s' h
      obtain ⟨_, htake, hnotake⟩ := visitInstr_state debug (mk n) s s₁ n hv
      by_cases ht : takesUnsupportedPath debug n.kind = true
      · obtain ⟨hf1, hn1⟩ := htake ht
        constructor
        · rw [hflag, hf1]
          simp [ht]
        · rw [hname, hn1]
          simp only [List.filter_cons, ht, if_pos]
          cases hfil : ns.filter fun m => takesUnsupportedPath debug m.kind with
          | nil => simp
          | cons m l =>
            rw [List.getLast?_cons_cons]
            cases hgl : (m :: l).getLast? with
            | none =>
              rw [List.getLast?_eq_none_iff] at hgl
              exact absurd hgl (by simp)
            | some x => rfl
      · have ht' : takesUnsupportedPath debug n.kind = false :=
          Bool.not_eq_true _ ▸ ht
        obtain ⟨hf1, hn1⟩ := hnotake ht'
        constructor
        · rw [hflag, hf1]
          simp [ht']
        · rw [hname, hn1]
          simp [List.filter_cons, ht']

/-- Claim C1 (amended): for every cloning pass, `AllOkay()` is false iff at
least one visited node took the unsupported path during the pass, and when it
is false `GetDebugNameForFailedClone()` returns the kind name of the LAST
unsupported node encountered in visitation order (each failure overwrites
`debug_name_failed_clone_`). -/
theorem allOkay_iff_and_last_failure (debug e u a : Bool)
    (mk : HInstruction → Nat) (ns : List HInstruction)
    (s' : HInstructionCloner)
    (h : runPass debug mk (mkCloner e u a) ns = some s') :
    (AllOkay s' = false ↔
      ∃ n ∈ ns, takesUnsupportedPath debug n.kind = true) ∧
    (∀ l₁ n l₂, ns = l₁ ++ n :: l₂ →
      takesUnsupportedPath debug n.kind = true →
      (∀ m ∈ l₂, takesUnsupportedPath debug m.kind = false) →
      GetDebugNameForFailedClone debug s' = some (some (debugName n.kind))) := by
  obtain ⟨hflag, hname⟩ := runPass_flag_name debug mk ns (mkCloner e u a) s' h
  have hflag' : s'.all_cloned_okay =
      !(ns.any fun n => takesUnsupportedPath debug n.kind) := by
    rw [hflag]; rfl
  constructor
  · unfold AllOkay
    rw [hflag']
    simp [List.any_eq_true]
  · intro l₁ n l₂ hsplit htake hafter
    subst hsplit
    have hfil : ((l₁ ++ n :: l₂).filter
        fun m => takesUnsupportedPath debug m.kind) =
        (l₁.filter fun m => takesUnsupportedPath debug m.kind) ++ [n] := by
      rw [List.filter_append]
      congr 1
      rw [List.filter_cons, if_pos htake]
      congr 1
      exact List.filter_eq_nil_iff.mpr fun m hm => by simp [hafter m hm]
    have hflagfalse : s'.all_cloned_okay = false := by
      rw [hflag']
      have hany : (l₁ ++ n :: l₂).any
          (fun m => takesUnsupportedPath debug m.kind) = true :=
        List.any_eq_true.mpr
          ⟨n, List.mem_append_right _ (List.mem_cons_self n l₂), htake⟩
      rw [hany]
      rfl
    have hlast : ((l₁ ++ n :: l₂).filter
        fun m => takesUnsupportedPath debug m.kind).getLast? = some n := by
      rw [hfil]
      cases hl : l₁.filter fun m => takesUnsupportedPath debug m.kind with
      | nil => rfl
      | cons x xs => rw [List.getLast?_append_cons]; rfl
    unfold GetDebugNameForFailedClone
    rw [if_neg]
    · rw [hname, hlast]
      rfl
    · intro hcontra
      rw [hflagfalse] at hcontra
      exact Bool.false_ne_true hcontra.2

/-- Witness for C1 (amended): a pass over an `Exit` node then an
`IntConstant` node fails, and the reported kind is "IntConstant", the last
failure. -/
theorem allOkay_iff_and_last_failure_witness :
    ∃ s', runPass false (fun n => n.id) (mkCloner true true false)
        [⟨.Exit, 1⟩, ⟨.IntConstant, 2⟩] = some s' ∧
      (AllOkay s' = false ↔
        ∃ n ∈ [(⟨.Exit, 1⟩ : HInstruction), ⟨.IntConstant, 2⟩],
          takesUnsupportedPath false n.kind = true) ∧
      GetDebugNameForFailedClone false s' = some (some "IntConstant") := by
  refine ⟨⟨true, false, true, false, [], [], some "IntConstant"⟩, rfl, ?_, ?_⟩
  · exact (allOkay_iff_and_last_failure false true true false (fun n => n.id)
      [⟨.Exit, 1⟩, ⟨.IntConstant, 2⟩] _ rfl).1
  · exact (allOkay_iff_and_last_failure false true true false (fun n => n.id)
      [⟨.Exit, 1⟩, ⟨.IntConstant, 2⟩] _ rfl).2
      [⟨.Exit, 1⟩] ⟨.IntConstant, 2⟩ [] rfl (by decide) (by simp)

/-- Counterexample to C1 as stated: in a pass visiting an `Exit` node and
then an `IntConstant` node (both unsupported), the reported failing kind is
"IntConstant" — the last failure in visitation order, not the first
("Exit"). -/
theorem failed_clone_name_is_last_not_first :
    (runPass false (fun n => n.id) (mkCloner true true false)
        [⟨.Exit, 1⟩, ⟨.IntConstant, 2⟩]).map
      (fun s => (AllOkay s, GetDebugNameForFailedClone false s)) =
      some (false, some (some "IntConstant")) ∧
    "IntConstant" ≠ "Exit" := by
  exact ⟨rfl, by decide⟩

/-! ### Shape invariants of the profile arrays (C9) -/

/-- Everything about a profile that must survive updates: each inline cache's
offset and slot count, and each block counter's offset. -/
def profShape (p : ProfilingInfo) : List (Nat × Nat) × List Nat :=
  (p.cache.map fun c => (c.dex_pc, c.classes.length),
   p.bbCounts.map fun c => c.dex_pc)

/-- The slot loop never changes the number of slots. -/
theorem addInvokeSlots_length (cls : Nat) (l : List (Option Nat)) :
    (addInvokeSlots cls l).1.length = l.length := by
  induction l with
  | nil => rfl
  | cons a rest ih =>
    cases a with
    | none => simp [addInvokeSlots]
    | some e =>
      by_cases h : e = cls
      · simp [addInvokeSlots, h]
      · simp [addInvokeSlots, h, ih]

/-- A successful `addInvokeCaches` preserves every offset and slot count. -/
theorem addInvokeCaches_shape (pc cls : Nat) (hn : Bool) :
    ∀ (l l' : List InlineCache) (pub : Bool) (bar : Nat),
      addInvokeCaches pc cls hn l = some (l', pub, bar) →
      l'.map (fun c => (c.dex_pc, c.classes.length)) =
        l.map (fun c => (c.dex_pc, c.classes.length)) := by
  intro l
  induction l with
  | nil => intro l' pub bar h; simp [addInvokeCaches] at h
  | cons c rest ih =>
    intro l' pub bar h
    by_cases hc : c.dex_pc = pc
    · simp only [addInvokeCaches, if_pos hc, Option.some.injEq, Prod.mk.injEq] at h
      obtain ⟨rfl, rfl, rfl⟩ := h
      simp [addInvokeSlots_length]
    · simp only [addInvokeCaches, if_neg hc] at h
      cases hrec : addInvokeCaches pc cls hn rest with
      | none => rw [hrec] at h; simp at h
      | some v =>
        obtain ⟨lr, pubr, barr⟩ := v
        rw [hrec] at h
        simp only [Option.some.injEq, Prod.mk.injEq] at h
        obtain ⟨rfl, rfl, rfl⟩ := h
        simp [ih lr pubr barr hrec]

/-- The counter loop preserves every offset (and the array length). -/
theorem incBBCounts_shape (pc : Nat) (l : List BBCounts) :
    (incBBCounts pc l).1.map (fun c => c.dex_pc) = l.map fun c => c.dex_pc := by
  induction l with
  | nil => rfl
  | cons c rest ih =>
    by_cases hc : c.dex_pc = pc
    · simp only [incBBCounts, if_pos hc]
      by_cases hmax : c.count = UINT32_MAX
      · simp [hmax]
      · simp [hmax]
    · simp [incBBCounts, hc, ih]

/-- A single completed operation preserves the profile shape. -/
theorem profStep_shape {p q : ProfilingInfo} (h : ProfStep p q) :
    profShape q = profShape p := by
  cases h with
  | inl h =>
    obtain ⟨pc, cls, pub, bar, h⟩ := h
    unfold AddInvokeInfo at h
    cases hc : addInvokeCaches pc cls p.holdingClassNull p.cache with
    | none => rw [hc] at h; simp at h
    | some v =>
      obtain ⟨l, pub2, bar2⟩ := v
      rw [hc] at h
      simp only [Option.some.injEq, Prod.mk.injEq] at h
      obtain ⟨hq, hpub, hbar⟩ := h
      subst hq
      unfold profShape
      simp [addInvokeCaches_shape pc cls p.holdingClassNull p.cache l pub2 bar2 hc]
  | inr h =>
    obtain ⟨debug, pc, h⟩ := h
    unfold IncrementBBCount at h
    by_cases hcond : (incBBCounts pc p.bbCounts).2 = false ∧ debug = true
    · simp [hcond] at h
    · rw [if_neg hcond] at h
      have hq : q = { p with bbCounts := (incBBCounts pc p.bbCounts).1 } := by
        injection h.symm
      rw [hq]
      unfold profShape
      simp [incBBCounts_shape]

/-- The call-site list produced by the scan, one step unfolded. -/
theorem bbScan_fst (pc : Nat) (i : DexInstr) (rest : List DexInstr) :
    (bbScan pc (i :: rest)).1 =
      if isProfiledInvoke i.op
      then pc :: (bbScan (pc + i.sizeInCodeUnits) rest).1
      else (bbScan (pc + i.sizeInCodeUnits) rest).1 := by
  simp only [bbScan]
  split_ifs <;> rfl

/-- With positive instruction sizes, the scan emits strictly increasing
call-site offsets, all at or beyond the starting pc. -/
theorem bbScan_entries_sorted (code : List DexInstr)
    (hsz : ∀ i ∈ code, 0 < i.sizeInCodeUnits) :
    ∀ pc, (∀ e ∈ (bbScan pc code).1, pc ≤ e) ∧
      (bbScan pc code).1.Pairwise (· < ·) := by
  induction code with
  | nil => intro pc; simp [bbScan]
  | cons i rest ih =>
    intro pc
    have hszr : ∀ j ∈ rest, 0 < j.sizeInCodeUnits :=
      fun j hj => hsz j (by simp [hj])
    have hi : 0 < i.sizeInCodeUnits := hsz i (by simp)
    obtain ⟨hlb, hpw⟩ := ih hszr (pc + i.sizeInCodeUnits)
    rw [bbScan_fst]
    by_cases hinv : isProfiledInvoke i.op = true
    · rw [if_pos hinv]
      refine ⟨?_, ?_⟩
      · intro e he
        rcases List.mem_cons.mp he with rfl | hmem
        · exact le_refl _
        · exact le_trans (Nat.le_add_right _ _) (hlb e hmem)
      · refine List.pairwise_cons.mpr ⟨?_, hpw⟩
        intro e he
        exact lt_of_lt_of_le (Nat.lt_add_of_pos_right hi) (hlb e he)
    · rw [if_neg hinv]
      refine ⟨?_, hpw⟩
      intro e he
      exact le_trans (Nat.le_add_right _ _) (hlb e he)

/-- Claim C9: in a profile built by the constructor from `Create`'s output,
the inline-cache offsets are pairwise distinct and the block-counter offsets
are pairwise distinct and strictly ascending; and no sequence of completed
`AddInvokeInfo` / `IncrementBBCount` operations changes either array's
shape. -/
theorem profile_shape_invariants :
    (∀ (code : List DexInstr) (handlers : List Nat) (cap : Nat) (hn : Bool),
      (∀ i ∈ code, 0 < i.sizeInCodeUnits) →
      ((ProfilingInfo.mk' cap (CreateScan code handlers).1
          (CreateScan code handlers).2 hn).cache.map
          fun c => c.dex_pc).Nodup ∧
      List.Sorted (· < ·)
        ((ProfilingInfo.mk' cap (CreateScan code handlers).1
          (CreateScan code handlers).2 hn).bbCounts.map fun c => c.dex_pc)) ∧
    (∀ p q, Relation.ReflTransGen ProfStep p q → profShape q = profShape p) := by
  constructor
  · intro code handlers cap hn hsz
    have hcache : ((ProfilingInfo.mk' cap (CreateScan code handlers).1
        (CreateScan code handlers).2 hn).cache.map fun c => c.dex_pc) =
        (CreateScan code handlers).1 := by
      unfold ProfilingInfo.mk'
      simp [List.map_map, Function.comp_def]
    have hbb : ((ProfilingInfo.mk' cap (CreateScan code handlers).1
        (CreateScan code handlers).2 hn).bbCounts.map fun c => c.dex_pc) =
        (CreateScan code handlers).2 := by
      unfold ProfilingInfo.mk'
      simp [List.map_map, Function.comp_def]
    constructor
    · rw [hcache]
      have hpw := (bbScan_entries_sorted code hsz 0).2
      exact List.Pairwise.imp (fun h => ne_of_lt h) hpw
    · rw [hbb]
      exact Finset.sort_sorted_lt _
  · intro p q h
    induction h with
    | refl => rfl
    | tail _ hstep ih => rw [profStep_shape hstep, ih]

/-- Witness for C9, on a two-instruction method with one virtual invoke. -/
theorem profile_shape_invariants_witness :
    ((ProfilingInfo.mk' 2
        (CreateScan [⟨.INVOKE_VIRTUAL, 3, 0, []⟩, ⟨.IF_EQ, 2, 4, []⟩] []).1
        (CreateScan [⟨.INVOKE_VIRTUAL, 3, 0, []⟩, ⟨.IF_EQ, 2, 4, []⟩] []).2
        false).cache.map fun c => c.dex_pc).Nodup ∧
    List.Sorted (· < ·)
      ((ProfilingInfo.mk' 2
        (CreateScan [⟨.INVOKE_VIRTUAL, 3, 0, []⟩, ⟨.IF_EQ, 2, 4, []⟩] []).1
        (CreateScan [⟨.INVOKE_VIRTUAL, 3, 0, []⟩, ⟨.IF_EQ, 2, 4, []⟩] []).2
        false).bbCounts.map fun c => c.dex_pc) := by
  have h := profile_shape_invariants.1
    [⟨.INVOKE_VIRTUAL, 3, 0, []⟩, ⟨.IF_EQ, 2, 4, []⟩] [] 2 false (by decide)
  exact h

/-! ### The discovered block-start set (C2) -/

/-- The block-start offsets the claim attributes to a single instruction
sitting at `pc`: an unconditional goto contributes its target; a conditional
branch its fall-through (`pc` + size) and its target; a packed/sparse switch
the offset immediately following it plus every decoded case target. -/
def instrBBContrib (x pc : Nat) (i : DexInstr) : Prop :=
  (isGotoOp i.op = true ∧ x = u32add pc i.targetOffset) ∨
  (isIfOp i.op = true ∧
    (x = pc + i.sizeInCodeUnits ∨ x = u32add pc i.targetOffset)) ∨
  (isSwitchOp i.op = true ∧
    (x = pc + i.sizeInCodeUnits ∨ ∃ t ∈ i.switchTargets, x = u32add pc t))

theorem invoke_excl (op : DexOp) (h : isProfiledInvoke op = true) :
    isGotoOp op = false ∧ isIfOp op = false ∧ isSwitchOp op = false := by
  cases op <;> revert h <;> decide

theorem goto_excl (op : DexOp) (h : isGotoOp op = true) :
    isIfOp op = false ∧ isSwitchOp op = false := by
  cases op <;> revert h <;> decide

theorem if_excl (op : DexOp) (h : isIfOp op = true) :
    isGotoOp op = false ∧ isSwitchOp op = false := by
  cases op <;> revert h <;> decide

theorem switch_excl (op : DexOp) (h : isSwitchOp op = true) :
    isGotoOp op = false ∧ isIfOp op = false := by
  cases op <;> revert h <;> decide

/-- Membership in the scan's block-start set is exactly the per-instruction
contribution of some instruction of the stream (provided switch instructions
have their format-31t size of 3 code units, so that the hard-coded
`dex_pc + 3` is the offset immediately following the switch). -/
theorem bbScan_mem (code : List DexInstr)
    (hsw : ∀ i ∈ code, isSwitchOp i.op = true → i.sizeInCodeUnits = 3) :
    ∀ pc x, x ∈ (bbScan pc code).2 ↔
      ∃ pi ∈ instrsWithPc pc code, instrBBContrib x pi.1 pi.2 := by
  induction code with
  | nil =>
    intro pc x
    simp [bbScan, instrsWithPc]
  | cons i rest ih =>
    intro pc x
    have hswr : ∀ j ∈ rest, isSwitchOp j.op = true → j.sizeInCodeUnits = 3 :=
      fun j hj => hsw j (by simp [hj])
    have ihr := ih hswr (pc + i.sizeInCodeUnits) x
    have hcons : instrsWithPc pc (i :: rest) =
        (pc, i) :: instrsWithPc (pc + i.sizeInCodeUnits) rest := rfl
    rw [hcons]
    by_cases hinv : isProfiledInvoke i.op = true
    · obtain ⟨hg, hf, hs⟩ := invoke_excl i.op hinv
      have hset : (bbScan pc (i :: rest)).2 =
          (bbScan (pc + i.sizeInCodeUnits) rest).2 := by
        simp only [bbScan]
        rw [if_pos hinv]
      rw [hset, ihr]
      simp [instrBBContrib, hg, hf, hs]
    · by_cases hg : isGotoOp i.op = true
      · obtain ⟨hf, hs⟩ := goto_excl i.op hg
        have hset : (bbScan pc (i :: rest)).2 =
            insert (u32add pc i.targetOffset)
              (bbScan (pc + i.sizeInCodeUnits) rest).2 := by
          simp only [bbScan]
          rw [if_neg hinv, if_pos hg]
        rw [hset, Finset.mem_insert, ihr]
        simp [instrBBContrib, hg, hf, hs]
      · by_cases hf : isIfOp i.op = true
        · obtain ⟨hg2, hs⟩ := if_excl i.op hf
          have hset : (bbScan pc (i :: rest)).2 =
              insert (pc + i.sizeInCodeUnits)
                (insert (u32add pc i.targetOffset)
                  (bbScan (pc + i.sizeInCodeUnits) rest).2) := by
            simp only [bbScan]
            rw [if_neg hinv, if_neg hg, if_pos hf]
          rw [hset, Finset.mem_insert, Finset.mem_insert, ihr]
          simp [instrBBContrib, hg2, hf, hs, or_assoc]
        · by_cases hs : isSwitchOp i.op = true
          · obtain ⟨hg2, hf2⟩ := switch_excl i.op hs
            have hsz := hsw i (by simp) hs
            have hset : (bbScan pc (i :: rest)).2 =
                insert (pc + 3)
                  ((bbScan (pc + i.sizeInCodeUnits) rest).2 ∪
                    (i.switchTargets.map (u32add pc)).toFinset) := by
              simp only [bbScan]
              rw [if_neg hinv, if_neg hg, if_neg hf, if_pos hs]
            have hcontrib : instrBBContrib x pc i ↔
                (x = pc + 3 ∨ ∃ t ∈ i.switchTargets, x = u32add pc t) := by
              unfold instrBBContrib
              simp [hg2, hf2, hs, hsz]
            rw [hset, Finset.mem_insert, Finset.mem_union, ihr]
            simp only [List.mem_cons, exists_eq_or_imp]
            rw [hcontrib]
            simp only [List.mem_toFinset, List.mem_map]
            constructor
            · rintro (h1 | h1 | ⟨t, ht, h1⟩)
              · exact Or.inl (Or.inl h1)
              · exact Or.inr h1
              · exact Or.inl (Or.inr ⟨t, ht, h1.symm⟩)
            · rintro ((h1 | ⟨t, ht, h1⟩) | h1)
              · exact Or.inl h1
              · exact Or.inr (Or.inr ⟨t, ht, h1.symm⟩)
              · exact Or.inr (Or.inl h1)
          · have hset : (bbScan pc (i :: rest)).2 =
                (bbScan (pc + i.sizeInCodeUnits) rest).2 := by
              simp only [bbScan]
              rw [if_neg hinv, if_neg hg, if_neg hf, if_neg hs]
            rw [hset, ihr]
            simp [instrBBContrib, hg, hf, hs]

/-- The bytecode of the claim's example: a conditional branch at offset 10,
of size 2 code units, with relative target 20 (so absolute target 30),
preceded and followed by branch-free filler. -/
def exampleCode : List DexInstr :=
  [⟨.OTHER, 10, 0, []⟩, ⟨.IF_EQ, 2, 20, []⟩, ⟨.OTHER, 18, 0, []⟩]

/-- Claim C2: the block-start set computed by `ProfilingInfo::Create`
contains exactly offset 0, every catch-handler entry address, and every
per-instruction contribution (goto target; conditional fall-through and
target; switch following-offset and case targets) — and nothing else; in
particular a conditional branch at offset 10 of size 2 targeting offset 30,
with no other branches or handlers, yields block starts `{0, 12, 30}`. -/
theorem create_block_starts_exact :
    (∀ (code : List DexInstr) (handlers : List Nat),
      (∀ i ∈ code, isSwitchOp i.op = true → i.sizeInCodeUnits = 3) →
      ∀ x, x ∈ createBBStartSet code handlers ↔
        (x = 0 ∨ x ∈ handlers ∨
          ∃ pi ∈ instrsWithPc 0 code, instrBBContrib x pi.1 pi.2)) ∧
    (bbScan 0 exampleCode).1 = [] ∧
    createBBStartSet exampleCode [] = {0, 12, 30} := by
  refine ⟨?_, rfl, ?_⟩
  · intro code handlers hsw x
    unfold createBBStartSet
    rw [Finset.mem_insert, Finset.mem_union, List.mem_toFinset,
        bbScan_mem code hsw 0 x]
    constructor
    · rintro (h1 | h1 | h1)
      · exact Or.inl h1
      · exact Or.inr (Or.inr h1)
      · exact Or.inr (Or.inl h1)
    · rintro (h1 | h1 | h1)
      · exact Or.inl h1
      · exact Or.inr (Or.inr h1)
      · exact Or.inr (Or.inl h1)
  · decide

/-- Witness for C2, instantiating the characterization at the example
method: 30 is a block start, and it is the branch target contribution. -/
theorem create_block_starts_exact_witness :
    30 ∈ createBBStartSet exampleCode [] ↔
      (30 = 0 ∨ 30 ∈ ([] : List Nat) ∨
        ∃ pi ∈ instrsWithPc 0 exampleCode, instrBBContrib 30 pi.1 pi.2) :=
  create_block_starts_exact.1 exampleCode [] (by decide) 30
